import Mathlib

/-!
Shallow embedding of the seal-proxy metrics relay
(crates/seal-proxy/src: handlers.rs, server.rs, middleware.rs, allowers.rs,
runtime.rs, main.rs).

Effects are modelled by their outcomes: network sends, body reads and the
fallible encoders are passed in as `Except`-valued arguments or functions,
mirroring the control flow of the Rust source statement by statement.
Byte buffers are `List Nat`, header maps are the entry sequences yielded by
`HeaderMap::iter`, and HTTP status codes are numerals.
-/

namespace SealProxy

/-- `StatusCode::OK`. -/
def OK : Nat := 200

/-- `StatusCode::BAD_GATEWAY`, produced by the three `map_err` closures in
`relay_metrics_to_mimir` (handlers.rs). -/
def BAD_GATEWAY : Nat := 502

/-- `StatusCode::PAYLOAD_TOO_LARGE`, the rejection a body-size limit emits. -/
def PAYLOAD_TOO_LARGE : Nat := 413

/-- `StatusCode::UNAUTHORIZED`, returned by `expect_valid_bearer_token`. -/
def UNAUTHORIZED : Nat := 401

/-- An upstream HTTP response as seen through reqwest: status code and the
body text that `response.text()` yields. -/
structure UpstreamResponse where
  status : Nat
  text : String
deriving DecidableEq, Repr

/-- A caller-visible HTTP response: status and body. -/
structure HttpResponse where
  status : Nat
  body : String
deriving DecidableEq, Repr

/-- `relay_metrics_to_mimir` (handlers.rs, lines 49-74), with its three
fallible effects passed in by outcome: `bodyRead` is the result of
`to_bytes(body, usize::MAX)`, `send` issues the outbound request from the
buffered body bytes, and `readText` is `response.text()`.  Each failure is
mapped by the source to `StatusCode::BAD_GATEWAY`; the error detail is only
handed to the log, never returned.  The handler's type is
`Result<String, StatusCode>`: on success it returns only the upstream body
text. -/
def relay_metrics_to_mimir
    (bodyRead : Except String (List Nat))
    (send : List Nat → Except String UpstreamResponse)
    (readText : UpstreamResponse → Except String String) :
    Except Nat String :=
  match bodyRead with
  | .error _ => .error BAD_GATEWAY
  | .ok body_bytes =>
    match send body_bytes with
    | .error _ => .error BAD_GATEWAY
    | .ok response =>
      match readText response with
      | .error _ => .error BAD_GATEWAY
      | .ok text => .ok text

/-- How axum renders the handler's `Result<String, StatusCode>` to the
caller: `Ok(s)` becomes a `200 OK` response carrying `s` as its body, and
`Err(status)` becomes a response with that status and an empty body. -/
def intoResponse : Except Nat String → HttpResponse
  | .ok text => { status := OK, body := text }
  | .error s => { status := s, body := "" }

/-- The default of the `MAX_BODY_SIZE` environment knob used by
`DefaultBodyLimit::max` in `app` (server.rs, lines 31-34): 5 MiB. -/
def MAX_BODY_SIZE : Nat := 1024 * 1024 * 5

/-- The value of `usize::MAX` on a 64-bit target, the explicit length limit
the handler passes to `to_bytes`. -/
def USIZE_MAX : Nat := 2 ^ 64 - 1

/-- `axum::body::to_bytes(body, limit)`: fails once the body exceeds `limit`,
otherwise yields the body bytes unchanged. -/
def to_bytes (limit : Nat) (body : List Nat) : Except String (List Nat) :=
  if body.length > limit then .error "length limit exceeded" else .ok body

/-- Outcome of the request pipeline's body handling for one inbound body:
either the body reaches the relay send, or the request is rejected with a
status before any relay work. -/
inductive PipelineOutcome where
  | relayed (body : List Nat)
  | rejected (status : Nat)
deriving DecidableEq, Repr

/-- The `/publish/metrics` body path as actually wired: `app` (server.rs)
configures `DefaultBodyLimit::max(MAX_BODY_SIZE)`, but that layer only
records the limit in a request extension consulted by the `Bytes`, `String`,
`Json`, ... extractors; `relay_metrics_to_mimir` (handlers.rs) instead
extracts the raw `Request` and buffers its body with
`to_bytes(body, usize::MAX)`, so the effective limit on this route is
`usize::MAX`, not `MAX_BODY_SIZE`.  A read failure is mapped to 502 by the
handler. -/
def pipeline_body_stage (body : List Nat) : PipelineOutcome :=
  match to_bytes USIZE_MAX body with
  | .error _ => .rejected BAD_GATEWAY
  | .ok body_bytes => .relayed body_bytes

/-- HTTP methods, as distinguished by `axum::http::Method` pattern arms. -/
inductive Method where
  | GET
  | POST
  | PUT
  | DELETE
  | HEAD
  | PATCH
  | OPTIONS
  | CONNECT
  | TRACE
deriving DecidableEq, Fintype, Repr

/-- The five methods with a translation arm in
`convert_axum_method_to_reqwest_method` (handlers.rs, lines 76-85). -/
def supported_methods : List Method :=
  [Method.GET, Method.POST, Method.PUT, Method.DELETE, Method.HEAD]

/-- The methods the single route registers: `post(relay_metrics_to_mimir)`
(server.rs, line 29). -/
def route_methods : List Method := [Method.POST]

/-- `convert_axum_method_to_reqwest_method` (handlers.rs): identity on the
five supported methods; `none` models the defensive fatal arm that aborts on
any other method. -/
def convert_axum_method_to_reqwest_method : Method → Option Method
  | .GET => some Method.GET
  | .POST => some Method.POST
  | .PUT => some Method.PUT
  | .DELETE => some Method.DELETE
  | .HEAD => some Method.HEAD
  | _ => none

/-- A header map as the sequence of (name, value) entries yielded by
`HeaderMap::iter`; a name with several values is yielded once per value, in
insertion order. -/
abbrev HeaderEntries := List (String × String)

/-- `HeaderMap::get`: the first value stored for a name. -/
def getHeader (hs : HeaderEntries) (name : String) : Option String :=
  (hs.find? (fun kv => kv.1 == name)).map (fun kv => kv.2)

/-- The last value carried by `name` in the entry sequence. -/
def lastValueFor (hs : HeaderEntries) (name : String) : Option String :=
  (hs.reverse.find? (fun kv => kv.1 == name)).map (fun kv => kv.2)

/-- `HeaderMap::insert` on the outbound reqwest header map: the single given
value replaces every value previously stored for the name. -/
def insertHeader (hs : HeaderEntries) (k v : String) : HeaderEntries :=
  hs.filter (fun p => !(p.1 == k)) ++ [(k, v)]

/-- One iteration of the `convert_headers` loop (handlers.rs, lines 90-97):
an entry is forwarded via `insert` only when both `HeaderName::from_bytes`
and `HeaderValue::from_bytes` succeed, each modelled by a Bool-valued
check; a failing entry is skipped individually. -/
def convert_step (validName validValue : String → Bool)
    (acc : HeaderEntries) (kv : String × String) : HeaderEntries :=
  if validName kv.1 then
    if validValue kv.2 then insertHeader acc kv.1 kv.2 else acc
  else acc

/-- `convert_headers` (handlers.rs, lines 87-100): fold the inbound entry
sequence into a fresh outbound map with replace-on-insert semantics. -/
def convert_headers (validName validValue : String → Bool)
    (axum_headers : HeaderEntries) : HeaderEntries :=
  axum_headers.foldl (convert_step validName validValue) []

/-- `BearerToken` (lib): an opaque token string. -/
abbrev BearerToken := String

/-- `BearerTokenProvider` (allowers.rs): the set of accepted bearer tokens,
modelled as the list of tokens loaded from configuration. -/
structure BearerTokenProvider where
  bearer_tokens : List BearerToken
deriving DecidableEq, Repr

/-- `Allower::allowed` for `BearerTokenProvider` (allowers.rs, lines 22-26):
`HashSet::contains`, a case-sensitive exact membership test. -/
def BearerTokenProvider.allowed (p : BearerTokenProvider) (key : BearerToken) : Bool :=
  p.bearer_tokens.contains key

/-- `str::strip_prefix p s`: drop the leading `p` when `s` starts with it. -/
def stripPre (p s : String) : Option String :=
  if s.take p.length == p then some (s.drop p.length) else none

/-- The token check of `expect_valid_bearer_token` (middleware.rs, lines
20-31), given the allower it extracts: the `authorization` header must be
present and read exactly `Bearer <t>` with `t` an allowed token; otherwise
the request is rejected with `(401, Unauthorized)`. -/
def bearer_token_check (allower : BearerTokenProvider) (headers : HeaderEntries) : Bool :=
  match getHeader headers "authorization" with
  | none => false
  | some auth_str =>
    match stripPre "Bearer " auth_str with
    | none => false
    | some token => allower.allowed token

/-- The two type-keyed axum extension slots touched by the auth stage: the
key of type `BearerTokenProvider` and the distinct key of type
`Arc<BearerTokenProvider>`.  An `Extension` layer inserts at the key of the
exact type it is given; an `Extension<T>` extractor looks up the key `T`
only. -/
structure AuthExtensions where
  plain : Option BearerTokenProvider
  arc : Option BearerTokenProvider
deriving DecidableEq, Repr

/-- `app` with a gate configured (server.rs, lines 37-40):
`.layer(Extension(allower))` with `allower : BearerTokenProvider` fills the
plain key; nothing in the router inserts at the `Arc<BearerTokenProvider>`
key. -/
def app_auth_extensions (allower : BearerTokenProvider) : AuthExtensions :=
  { plain := some allower, arc := none }

/-- Outcome of the auth stage for one request. -/
inductive AuthOutcome where
  | proceed
  | unauthorized
  | missingExtension
deriving DecidableEq, Repr

/-- `expect_valid_bearer_token` as run by `middleware::from_fn`
(middleware.rs, lines 15-35): first the
`Extension<Arc<BearerTokenProvider>>` extractor runs, rejecting with a 500
missing-extension response when that key is absent; only then does the token
check decide between `next.run(req)` and the 401 rejection. -/
def expect_valid_bearer_token (ext : AuthExtensions) (headers : HeaderEntries) : AuthOutcome :=
  match ext.arc with
  | none => .missingExtension
  | some allower =>
    if bearer_token_check allower headers then .proceed else .unauthorized

/-- One metric sample: its optional protobuf timestamp and an opaque sample
payload. -/
structure Metric where
  timestamp_ms : Option Int
  value : Int
deriving DecidableEq, Repr

/-- One named metric family, as returned by `Registry::gather`. -/
structure MetricFamily where
  name : String
  metrics : List Metric
deriving DecidableEq, Repr

/-- `MetricPayload` (runtime.rs, lines 160-169): the configured static labels
together with the protobuf-encoded family bytes. -/
structure MetricPayload where
  labels : Option (List (String × String))
  buf : List Nat
deriving DecidableEq, Repr

/-- The outbound push request built by `push_metrics`. -/
structure PushRequest where
  method : String
  url : String
  authorization : String
  contentEncoding : String
  body : List Nat
deriving DecidableEq, Repr

/-- The stamping loop of `push_metrics` (runtime.rs, lines 188-193):
`m.set_timestamp_ms(now)` on every metric of every gathered family. -/
def stamp_families (now : Int) (fams : List MetricFamily) : List MetricFamily :=
  fams.map fun mf =>
    { mf with metrics := mf.metrics.map fun m => { m with timestamp_ms := some now } }

/-- `push_metrics` (runtime.rs, lines 173-215): stamp the gathered families
with the single collection timestamp `now` (milliseconds since epoch),
protobuf-encode them, wrap with the static labels into a `MetricPayload`,
JSON-serialize, snappy-compress, and build the POST to `push_url` with the
raw bearer token in `Authorization` and `snappy` in `Content-Encoding`.
The three encoders stand for `ProtobufEncoder::encode`,
`serde_json::to_vec` and `snap::raw::Encoder::compress_vec`; each may fail,
and a failure aborts the cycle with that error. -/
def push_metrics
    (protobufEncode : List MetricFamily → Except String (List Nat))
    (jsonSerialize : MetricPayload → Except String (List Nat))
    (snappyCompress : List Nat → Except String (List Nat))
    (bearer_token : String) (push_url : String)
    (gathered : List MetricFamily)
    (labels : Option (List (String × String)))
    (now : Int) : Except String PushRequest :=
  let metric_families := stamp_families now gathered
  match protobufEncode metric_families with
  | .error e => .error e
  | .ok buf =>
    match jsonSerialize { labels := labels, buf := buf } with
    | .error e => .error e
    | .ok serialized =>
      match snappyCompress serialized with
      | .error e => .error e
      | .ok compressed =>
        .ok { method := "POST", url := push_url, authorization := bearer_token,
              contentEncoding := "snappy", body := compressed }

/-- The `response.status().is_success()` check closing `push_metrics`
(runtime.rs, lines 217-228): a non-2xx status turns the whole push cycle
into an error, exactly like a transport failure. -/
def check_push_response (status : Nat) : Except String Unit :=
  if 200 ≤ status ∧ status < 300 then .ok () else .error "metrics push failed"

/-- Push-loop state: the generation of the outbound reqwest client; each call
of `create_push_client` (runtime.rs, lines 153-158) yields a fresh client,
modelled as the next generation. -/
structure LoopState where
  clientGen : Nat
deriving DecidableEq, Repr

/-- `create_push_client`: build a brand-new outbound client. -/
def create_push_client (st : LoopState) : LoopState :=
  { clientGen := st.clientGen + 1 }

/-- One observable event the push loop's multiplexed wait can resolve to:
a timer tick (carrying the outcome of the `push_metrics` call made on that
tick) or the cancellation token firing. -/
inductive LoopEvent where
  | tick (pushResult : Except String Unit)
  | cancelled

/-- One iteration of the loop in `MetricPushRuntime::start` (runtime.rs,
lines 116-136): on a tick whose push failed, the error is logged and the
client is rebuilt, and in either tick case the loop continues (`some` next
state); on cancellation the task returns `Ok(())` (`none`: loop exited). -/
def loop_step (st : LoopState) : LoopEvent → Option LoopState
  | .tick (.ok _) => some st
  | .tick (.error _) => some (create_push_client st)
  | .cancelled => none

/-- The push loop run against a schedule of resolved wait events: returns how
many push attempts were performed and, once a cancellation event is
processed, the task's return value `Ok(())` (`none` while the schedule ends
with the loop still live). -/
def run_loop (st : LoopState) : List LoopEvent → Nat × Option (Except String Unit)
  | [] => (0, none)
  | .cancelled :: _ => (0, some (.ok ()))
  | .tick res :: rest =>
    let next :=
      match loop_step st (.tick res) with
      | some st2 => st2
      | none => st
    let r := run_loop next rest
    (r.1 + 1, r.2)

/-- `MetricPushRuntime::join` (runtime.rs, lines 146-149): block on the push
task's handle and surface its result — available once the loop has
exited. -/
def MetricPushRuntime.join (outcome : Nat × Option (Except String Unit)) :
    Option (Except String Unit) :=
  outcome.2

/-- The top-level wiring actions a process entry point of this crate can
perform, named after the calls in main.rs and server.rs. -/
inductive WiringStep where
  | initTracing
  | initPromRegistry
  | parseArgs
  | loadConfig
  | makeReqwestClient
  | makeBearerTokenProvider
  | buildApp
  | bindListener
  | serve
  | serveWithGracefulShutdown
  | startMetricPushRuntime
deriving DecidableEq, Repr

/-- The statements of `main` (main.rs, lines 56-93), in order: it ends with a
plain `axum::serve(listener, app).await` — no graceful-shutdown hook and no
`MetricPushRuntime::start`. -/
def main_steps : List WiringStep :=
  [WiringStep.initTracing, WiringStep.initPromRegistry, WiringStep.parseArgs,
   WiringStep.loadConfig, WiringStep.makeReqwestClient,
   WiringStep.makeBearerTokenProvider, WiringStep.buildApp,
   WiringStep.bindListener, WiringStep.serve]

/-- The body of `server::server` (server.rs, lines 68-73): serve with
`with_graceful_shutdown(shutdown_signal())`.  `main` never calls this
function. -/
def server_fn_steps : List WiringStep :=
  [WiringStep.serveWithGracefulShutdown]

/-- C1 counterexample: with all three relay effects succeeding and the
upstream answering status 500 with body text `upstream failed`, the caller
receives status 200 carrying that body — not the upstream status 500, so the
upstream status is not returned unmodified. -/
theorem c1_counterexample :
    intoResponse (relay_metrics_to_mimir (Except.ok [42])
        (fun _ => Except.ok { status := 500, text := "upstream failed" })
        (fun r => Except.ok r.text))
      = { status := 200, body := "upstream failed" } ∧
    intoResponse (relay_metrics_to_mimir (Except.ok [42])
        (fun _ => Except.ok { status := 500, text := "upstream failed" })
        (fun r => Except.ok r.text))
      ≠ { status := 500, body := "upstream failed" } := by
  constructor
  · rfl
  · decide

/-- C1 (amended): for every relayed request whose upstream call succeeds, the
relay returns the upstream body text to the caller unmodified, but with
local status `200 OK`; in particular a non-2xx upstream status is not mapped
to a gateway error — it is simply discarded, not forwarded. -/
theorem c1_success_body_passthrough (b : List Nat) (resp : UpstreamResponse) :
    intoResponse (relay_metrics_to_mimir (Except.ok b)
        (fun _ => Except.ok resp) (fun r => Except.ok r.text))
      = { status := OK, body := resp.text } := rfl

/-- C8: every transport failure — body read, send to upstream, or reading the
upstream response text — yields the generic `502 Bad Gateway` with an empty
body, for every error-detail string `e`: the detail never appears in the
caller-visible response. -/
theorem c8_transport_errors_bad_gateway (e : String) :
    (∀ send readText,
        intoResponse (relay_metrics_to_mimir (Except.error e) send readText)
          = { status := BAD_GATEWAY, body := "" }) ∧
    (∀ (b : List Nat) readText,
        intoResponse (relay_metrics_to_mimir (Except.ok b)
            (fun _ => Except.error e) readText)
          = { status := BAD_GATEWAY, body := "" }) ∧
    (∀ (b : List Nat) (resp : UpstreamResponse),
        intoResponse (relay_metrics_to_mimir (Except.ok b)
            (fun _ => Except.ok resp) (fun _ => Except.error e))
          = { status := BAD_GATEWAY, body := "" }) :=
  ⟨fun _ _ => rfl, fun _ _ => rfl, fun _ _ => rfl⟩

/-- C2 (code bug): the configured cap is the claimed 5 MiB default, but the
handler reads the raw request body with limit `usize::MAX`, so a body one
byte over the cap is buffered and relayed instead of being rejected with a
413; every body that fits in `usize::MAX` is relayed byte-for-byte. -/
theorem c2_oversized_body_forwarded :
    MAX_BODY_SIZE = 5 * 1024 * 1024 ∧
    pipeline_body_stage (List.replicate (MAX_BODY_SIZE + 1) 0)
      = PipelineOutcome.relayed (List.replicate (MAX_BODY_SIZE + 1) 0) ∧
    (∀ b : List Nat, b.length ≤ MAX_BODY_SIZE →
        pipeline_body_stage b = PipelineOutcome.relayed b) := by
  have key : ∀ b : List Nat, b.length ≤ USIZE_MAX →
      pipeline_body_stage b = PipelineOutcome.relayed b := by
    intro b hb
    unfold pipeline_body_stage to_bytes
    rw [if_neg (by omega)]
  refine ⟨rfl, ?_, ?_⟩
  · refine key _ ?_
    rw [List.length_replicate]
    norm_num [MAX_BODY_SIZE, USIZE_MAX]
  · intro b hb
    refine key b ?_
    have h2 : MAX_BODY_SIZE ≤ USIZE_MAX := by norm_num [MAX_BODY_SIZE, USIZE_MAX]
    omega

/-- C2 witness: a three-byte body is relayed byte-for-byte. -/
theorem c2_oversized_body_forwarded_witness :
    pipeline_body_stage [1, 2, 3] = PipelineOutcome.relayed [1, 2, 3] :=
  c2_oversized_body_forwarded.2.2 [1, 2, 3] (by decide)

/-- C3 (code bug): with the gate `{abc123}` configured exactly as `app` wires
it, even the well-formed request carrying `Authorization: Bearer abc123`
does not proceed to the relay — the middleware's
`Extension<Arc<BearerTokenProvider>>` extractor fails with a 500
missing-extension rejection, because `app` inserted the provider under the
plain `BearerTokenProvider` key.  The token check itself, when handed the
provider, accepts the valid request, rejects a requests without the header,
and `allowed` is exact set membership. -/
theorem c3_auth_extension_mismatch :
    expect_valid_bearer_token (app_auth_extensions { bearer_tokens := ["abc123"] })
        [("authorization", "Bearer abc123")] = AuthOutcome.missingExtension ∧
    bearer_token_check { bearer_tokens := ["abc123"] }
        [("authorization", "Bearer abc123")] = true ∧
    bearer_token_check { bearer_tokens := ["abc123"] } [] = false ∧
    (∀ (S : List BearerToken) (t : BearerToken),
        BearerTokenProvider.allowed { bearer_tokens := S } t = true ↔ t ∈ S) := by
  refine ⟨rfl, rfl, rfl, ?_⟩
  intro S t
  simp [BearerTokenProvider.allowed]

/-- C9: the method translation is defined exactly on GET, POST, PUT, DELETE
and HEAD, where it is the identity; every other method reaches the defensive
fatal arm (`none`); and since the route only registers POST, the fatal arm
is unreachable for the methods the route receives. -/
theorem c9_method_translation :
    (∀ m : Method,
        (convert_axum_method_to_reqwest_method m).isSome = true ↔ m ∈ supported_methods) ∧
    (∀ m : Method, m ∈ supported_methods →
        convert_axum_method_to_reqwest_method m = some m) ∧
    (∀ m : Method, m ∈ route_methods →
        (convert_axum_method_to_reqwest_method m).isSome = true) := by
  refine ⟨?_, ?_, ?_⟩ <;> decide

/-- C9 witness: POST is supported, registered on the route, translated to
itself, and does not reach the fatal arm. -/
theorem c9_method_translation_witness :
    convert_axum_method_to_reqwest_method Method.POST = some Method.POST ∧
    (convert_axum_method_to_reqwest_method Method.POST).isSome = true :=
  ⟨c9_method_translation.2.1 Method.POST (by decide),
   c9_method_translation.2.2 Method.POST (by decide)⟩

/-- C4 counterexample: `main` neither starts the push runtime nor installs
the graceful-shutdown hook on its serve call, so the claimed lifecycle
coordination is absent from the process entry point. -/
theorem c4_counterexample :
    WiringStep.startMetricPushRuntime ∉ main_steps ∧
    WiringStep.serveWithGracefulShutdown ∉ main_steps := by decide

/-- C4 (amended): `main` starts only the relay server, via a plain
`axum::serve` with no graceful-shutdown hook, and never starts the metrics
push runtime; the graceful-shutdown serving wiring exists only in the
separate library function `server::server`, which `main` does not call. -/
theorem c4_main_wiring :
    WiringStep.serve ∈ main_steps ∧
    WiringStep.startMetricPushRuntime ∉ main_steps ∧
    WiringStep.serveWithGracefulShutdown ∉ main_steps ∧
    server_fn_steps = [WiringStep.serveWithGracefulShutdown] := by decide

/-- C5: on a push tick, every gathered sample is stamped with the same
collection timestamp `now`; the stamped family set is protobuf-encoded,
wrapped with the configured static labels into the payload
`{labels, buf}`, JSON-serialized, snappy-compressed, and the compressed
bytes are POSTed to `push_url` with the raw bearer token in `Authorization`
and `snappy` in `Content-Encoding` — for every choice of encoders, whenever
the three encoding stages succeed. -/
theorem c5_push_pipeline
    (protobufEncode : List MetricFamily → Except String (List Nat))
    (jsonSerialize : MetricPayload → Except String (List Nat))
    (snappyCompress : List Nat → Except String (List Nat))
    (bearer_token push_url : String)
    (gathered : List MetricFamily)
    (labels : Option (List (String × String)))
    (now : Int) (buf serialized compressed : List Nat)
    (hp : protobufEncode (stamp_families now gathered) = Except.ok buf)
    (hj : jsonSerialize { labels := labels, buf := buf } = Except.ok serialized)
    (hs : snappyCompress serialized = Except.ok compressed) :
    push_metrics protobufEncode jsonSerialize snappyCompress
        bearer_token push_url gathered labels now
      = Except.ok { method := "POST", url := push_url,
                    authorization := bearer_token, contentEncoding := "snappy",
                    body := compressed } ∧
    (∀ mf ∈ stamp_families now gathered, ∀ m ∈ mf.metrics,
        m.timestamp_ms = some now) := by
  constructor
  · simp [push_metrics, hp, hj, hs]
  · intro mf hmf m hm
    simp only [stamp_families, List.mem_map] at hmf
    obtain ⟨mf0, _, rfl⟩ := hmf
    simp only [List.mem_map] at hm
    obtain ⟨m0, _, rfl⟩ := hm
    rfl

/-- C5 witness: a concrete one-family registry pushed with trivial encoders
produces the snappy-marked POST carrying the raw token, and the stamped
family carries the tick timestamp on its sample. -/
theorem c5_push_pipeline_witness :
    push_metrics (fun _ => Except.ok [7]) (fun _ => Except.ok [8])
        (fun _ => Except.ok [9]) "tok" "push-url"
        [{ name := "fam", metrics := [{ timestamp_ms := none, value := 3 }] }]
        none 5
      = Except.ok { method := "POST", url := "push-url", authorization := "tok",
                    contentEncoding := "snappy", body := [9] } ∧
    (∀ mf ∈ stamp_families 5
        [{ name := "fam", metrics := [{ timestamp_ms := none, value := 3 }] }],
      ∀ m ∈ mf.metrics, m.timestamp_ms = some 5) :=
  c5_push_pipeline _ _ _ "tok" "push-url" _ none 5 [7] [8] [9] rfl rfl rfl

/-- C6: a failed push on a tick — with any error detail, as produced by a
failing encode, serialize or compress stage of `push_metrics`, and equally
by a non-2xx response, which `check_push_response` turns into an error —
leaves the loop running (a `some` next state, never loop exit) and rebuilds
the outbound client before the next attempt. -/
theorem c6_push_errors_nonfatal (e : String) :
    (∀ st : LoopState, loop_step st (LoopEvent.tick (Except.error e))
        = some { clientGen := st.clientGen + 1 }) ∧
    (∀ status : Nat,
        check_push_response status = Except.ok () ↔ 200 ≤ status ∧ status < 300) ∧
    (∀ jsonSerialize snappyCompress tok url gathered labels now,
        push_metrics (fun _ => Except.error e) jsonSerialize snappyCompress
          tok url gathered labels now = Except.error e) ∧
    (∀ (b : List Nat) snappyCompress tok url gathered labels now,
        push_metrics (fun _ => Except.ok b) (fun _ => Except.error e)
          snappyCompress tok url gathered labels now = Except.error e) ∧
    (∀ (b c : List Nat) tok url gathered labels now,
        push_metrics (fun _ => Except.ok b) (fun _ => Except.ok c)
          (fun _ => Except.error e) tok url gathered labels now
          = Except.error e) := by
  refine ⟨fun st => rfl, ?_, fun _ _ _ _ _ _ _ => rfl,
    fun _ _ _ _ _ _ _ => rfl, fun _ _ _ _ _ _ _ => rfl⟩
  intro status
  unfold check_push_response
  split <;> simp_all

/-- C7: when the cancellation signal wins the multiplexed wait before any
tick — the event schedule starts with `cancelled` — the loop performs zero
push attempts and exits with the task value `Ok(())`, and `join` then
surfaces exactly that completed result, for every loop state and any later
schedule. -/
theorem c7_cancel_before_tick (st : LoopState) (rest : List LoopEvent) :
    run_loop st (LoopEvent.cancelled :: rest) = (0, some (Except.ok ())) ∧
    MetricPushRuntime.join (run_loop st (LoopEvent.cancelled :: rest))
      = some (Except.ok ()) :=
  ⟨rfl, rfl⟩

/-- Entries surviving the removal pass of `insert` never match the inserted
name. -/
theorem find?_filterKey_self (k : String) (acc : HeaderEntries) :
    (acc.filter (fun p => !(p.1 == k))).find? (fun kv => kv.1 == k) = none := by
  induction acc with
  | nil => rfl
  | cons p rest ih =>
    cases hp : (p.1 == k) with
    | true => simp [List.filter_cons, hp, ih]
    | false =>
      simp only [List.filter_cons]
      rw [if_pos (by simp [hp])]
      rw [List.find?_cons, hp]
      exact ih

/-- `insert` makes the inserted value the one stored for its name. -/
theorem getHeader_insertHeader_self (acc : HeaderEntries) (k v : String) :
    getHeader (insertHeader acc k v) k = some v := by
  unfold getHeader insertHeader
  rw [List.find?_append, find?_filterKey_self]
  simp [List.find?_cons]

/-- `insert` at one name leaves the value stored for a different name
unchanged. -/
theorem getHeader_insertHeader_ne (acc : HeaderEntries) (k2 v k : String)
    (h : (k2 == k) = false) :
    getHeader (insertHeader acc k2 v) k = getHeader acc k := by
  unfold getHeader insertHeader
  rw [List.find?_append]
  have hfil : (acc.filter (fun p => !(p.1 == k2))).find? (fun kv => kv.1 == k)
      = acc.find? (fun kv => kv.1 == k) := by
    induction acc with
    | nil => rfl
    | cons p rest ih =>
      by_cases hp : (p.1 == k2) = true
      · have hpk : (p.1 == k) = false := by
          have hp2 : p.1 = k2 := eq_of_beq hp
          rw [hp2]
          exact h
        simp only [List.filter_cons]
        rw [if_neg (by simp [hp]), List.find?_cons, hpk]
        exact ih
      · simp only [List.filter_cons]
        rw [if_pos (by simp [hp])]
        rw [List.find?_cons, List.find?_cons]
        cases hk : (p.1 == k) with
        | true => rfl
        | false => exact ih
  rw [hfil]
  have hsing : ([(k2, v)].find? (fun kv => kv.1 == k)) = none := by
    rw [List.find?_cons, h]
    rfl
  rw [hsing]
  cases acc.find? (fun kv => kv.1 == k) <;> rfl

/-- After an `insert` at a name, the map holds exactly one entry for it. -/
theorem countP_insertHeader_self (acc : HeaderEntries) (k v : String) :
    (insertHeader acc k v).countP (fun kv => kv.1 == k) = 1 := by
  unfold insertHeader
  rw [List.countP_append]
  have h0 : (acc.filter (fun p => !(p.1 == k))).countP (fun kv => kv.1 == k) = 0 := by
    induction acc with
    | nil => rfl
    | cons p rest ih =>
      cases hp : (p.1 == k) with
      | true => simp [List.filter_cons, hp, ih]
      | false =>
        simp only [List.filter_cons]
        rw [if_pos (by simp [hp])]
        rw [List.countP_cons, ih, hp]
        rfl
  rw [h0]
  simp [List.countP_cons]

/-- An `insert` at a different name does not increase the number of entries a
name holds. -/
theorem countP_insertHeader_ne (acc : HeaderEntries) (k2 v k : String)
    (h : (k2 == k) = false) :
    (insertHeader acc k2 v).countP (fun kv => kv.1 == k)
      ≤ acc.countP (fun kv => kv.1 == k) := by
  unfold insertHeader
  rw [List.countP_append]
  have hsub : (acc.filter (fun p => !(p.1 == k2))).countP (fun kv => kv.1 == k)
      ≤ acc.countP (fun kv => kv.1 == k) :=
    (List.filter_sublist _).countP_le _
  have hsing : ([(k2, v)] : HeaderEntries).countP (fun kv => kv.1 == k) = 0 := by
    rw [List.countP_cons, h]
    rfl
  omega

/-- Peeling one entry off the front of the sequence: the last value for a
name is the last value in the tail when there is one, and otherwise the head
entry's value when the head carries the name. -/
theorem lastValueFor_cons (kv : String × String) (rest : HeaderEntries) (k : String) :
    lastValueFor (kv :: rest) k
      = ((lastValueFor rest k).or
          (if kv.1 == k then some kv.2 else none)) := by
  unfold lastValueFor
  rw [List.reverse_cons, List.find?_append]
  cases hfind : rest.reverse.find? (fun p => p.1 == k) with
  | none =>
    rw [List.find?_cons]
    cases hk : (kv.1 == k) with
    | true => rfl
    | false => rfl
  | some p => rfl

/-- Invariant of the `convert_headers` fold: for a name whose reqwest parse
succeeds and whose inbound values all parse, the value stored after folding
an entry sequence on top of an accumulator is the sequence's last value for
the name, falling back to the accumulator's value when the sequence has
none. -/
theorem convert_fold_get (validName validValue : String → Bool) (k : String)
    (hn : validName k = true) :
    ∀ (hs acc : HeaderEntries),
      (∀ v, (k, v) ∈ hs → validValue v = true) →
      getHeader (hs.foldl (convert_step validName validValue) acc) k
        = ((lastValueFor hs k).or (getHeader acc k)) := by
  intro hs
  induction hs with
  | nil =>
    intro acc hv
    simp [lastValueFor]
  | cons kv rest ih =>
    intro acc hv
    rw [List.foldl_cons]
    rw [ih _ (fun v hm => hv v (List.mem_cons_of_mem _ hm))]
    rw [lastValueFor_cons, Option.or_assoc]
    congr 1
    cases hk : (kv.1 == k) with
    | true =>
      have hk1 : kv.1 = k := eq_of_beq hk
      have hval : validValue kv.2 = true := by
        refine hv kv.2 ?_
        have : (k, kv.2) = kv := by
          cases kv with
          | mk a b => simp at hk1 ⊢; exact hk1.symm
        rw [this]
        exact List.mem_cons_self _ _
      unfold convert_step
      rw [hk1, hn, hval]
      simp only [if_true]
      rw [getHeader_insertHeader_self]
      rfl
    | false =>
      unfold convert_step
      by_cases h1 : validName kv.1 = true
      · rw [h1]
        simp only [if_true]
        by_cases h2 : validValue kv.2 = true
        · rw [h2]
          simp only [if_true]
          rw [getHeader_insertHeader_ne _ _ _ _ hk]
          rfl
        · rw [eq_false_of_ne_true h2]
          simp only [Bool.false_eq_true, if_false]
          rfl
      · rw [eq_false_of_ne_true h1]
        simp only [Bool.false_eq_true, if_false]
        rfl

/-- Invariant of the `convert_headers` fold: folding never takes a name above
one stored entry. -/
theorem convert_fold_count (validName validValue : String → Bool) (k : String) :
    ∀ (hs acc : HeaderEntries),
      acc.countP (fun kv => kv.1 == k) ≤ 1 →
      (hs.foldl (convert_step validName validValue) acc).countP
          (fun kv => kv.1 == k) ≤ 1 := by
  intro hs
  induction hs with
  | nil =>
    intro acc h
    simpa using h
  | cons kv rest ih =>
    intro acc h
    rw [List.foldl_cons]
    refine ih _ ?_
    unfold convert_step
    by_cases h1 : validName kv.1 = true
    · rw [h1]
      simp only [if_true]
      by_cases h2 : validValue kv.2 = true
      · rw [h2]
        simp only [if_true]
        cases hk : (kv.1 == k) with
        | true =>
          have hk1 : kv.1 = k := eq_of_beq hk
          rw [hk1, countP_insertHeader_self]
        | false =>
          exact le_trans (countP_insertHeader_ne acc kv.1 kv.2 k hk) h
      · rw [eq_false_of_ne_true h2]
        simpa using h
    · rw [eq_false_of_ne_true h1]
      simpa using h

/-- C10: for every inbound entry sequence, a name whose reqwest parse
succeeds and whose values all parse ends up mapped to exactly the last value
the sequence carries for it — duplicates are collapsed to at most one stored
entry rather than all copied — and a single-valued name is therefore copied
through unchanged. -/
theorem c10_convert_headers_last_value_wins
    (validName validValue : String → Bool) (hs : HeaderEntries) (k : String)
    (hn : validName k = true)
    (hv : ∀ v, (k, v) ∈ hs → validValue v = true) :
    getHeader (convert_headers validName validValue hs) k = lastValueFor hs k ∧
    (convert_headers validName validValue hs).countP (fun kv => kv.1 == k) ≤ 1 := by
  constructor
  · have hmain := convert_fold_get validName validValue k hn hs [] hv
    rw [convert_headers]
    rw [hmain]
    cases lastValueFor hs k <;> rfl
  · exact convert_fold_count validName validValue k hs [] (by simp)

/-- C10 witness: a duplicated name forwards only its last value and is stored
once; the value is the concrete last one, `2`. -/
theorem c10_convert_headers_last_value_wins_witness :
    (getHeader (convert_headers (fun _ => true) (fun _ => true)
        [("x-a", "1"), ("x-a", "2"), ("x-b", "3")]) "x-a"
      = lastValueFor [("x-a", "1"), ("x-a", "2"), ("x-b", "3")] "x-a" ∧
    (convert_headers (fun _ => true) (fun _ => true)
        [("x-a", "1"), ("x-a", "2"), ("x-b", "3")]).countP
        (fun kv => kv.1 == "x-a") ≤ 1) ∧
    lastValueFor [("x-a", "1"), ("x-a", "2"), ("x-b", "3")] "x-a" = some "2" :=
  ⟨c10_convert_headers_last_value_wins (fun _ => true) (fun _ => true)
      [("x-a", "1"), ("x-a", "2"), ("x-b", "3")] "x-a" rfl (fun _ _ => rfl),
   rfl⟩

end SealProxy
